import Mathlib

/-!
A verification development for the plugin discovery and tool-dispatch
subsystem of `smcp.py` (the Animus Letta MCP server).  The Python source is
shallowly embedded: subprocess execution is an explicit oracle
`List String → Except String ProcResult`, the metrics counters are an
explicit record threaded through the handler, and the Python string
operations (`str.strip`, `str.split`, `str.startswith`, `in`) are modelled
by structurally recursive functions over the underlying character lists so
that every definition evaluates by kernel reduction.
-/

namespace SMCP

/-- Whitespace test matching the characters stripped by Python `str.strip()`
for the ASCII help/stdout text this server handles. -/
def isWs (c : Char) : Bool :=
  c == ' ' || c == '\t' || c == '\n' || c == '\r'

/-- Model of Python `str.strip()`: drop leading and trailing whitespace. -/
def pyStrip (s : String) : String :=
  String.mk (((s.data.dropWhile isWs).reverse.dropWhile isWs).reverse)

/-- Model of Python `str.startswith(p)`. -/
def beginsWith (s p : String) : Bool :=
  p.data.isPrefixOf s.data

/-- Auxiliary splitter for `pySplitWs`: walks the character list keeping an
accumulator of the current (reversed) token. -/
def splitWsAux : List Char → List Char → List String
  | [], acc => if acc = [] then [] else [String.mk acc.reverse]
  | c :: cs, acc =>
    if isWs c then
      if acc = [] then splitWsAux cs []
      else String.mk acc.reverse :: splitWsAux cs []
    else splitWsAux cs (c :: acc)

/-- Model of Python `str.split()` with no separator: split on runs of
whitespace, returning no empty tokens. -/
def pySplitWs (s : String) : List String :=
  splitWsAux s.data []

/-- Auxiliary splitter for `pySplitOnComma`. -/
def splitCharAux (sep : Char) : List Char → List Char → List String
  | [], acc => [String.mk acc.reverse]
  | c :: cs, acc =>
    if c = sep then String.mk acc.reverse :: splitCharAux sep cs []
    else splitCharAux sep cs (c :: acc)

/-- Model of Python `str.split(",")`: split at every comma, keeping empty
pieces. -/
def pySplitOnComma (s : String) : List String :=
  splitCharAux ',' s.data []

/-- The plugin component of a tool name: `tool_name.split('_', 1)[0]`,
i.e. the characters before the first underscore. -/
def pluginOf (tool : String) : String :=
  String.mk (tool.data.takeWhile (fun c => c ≠ '_'))

/-- The command component of a tool name: `tool_name.split('_', 1)[1]`,
i.e. the characters after the first underscore. -/
def commandOf (tool : String) : String :=
  String.mk ((tool.data.dropWhile (fun c => c ≠ '_')).drop 1)

/-- JSON-compatible scalar values appearing in a tool call's `arguments`
mapping (`smcp.py` distinguishes only `bool` from everything else, which it
stringifies; numbers are modelled as integers, which is the type exercised
by the spec's examples). -/
inductive JVal where
  | str (s : String)
  | num (n : Int)
  | bool (b : Bool)
deriving DecidableEq

/-- Python `str(value)` for the non-boolean scalars of `JVal`.  Booleans are
never passed through this function by the dispatcher (they are handled by
the presence-only flag convention first). -/
def pyStr : JVal → String
  | .str s => s
  | .num n => toString n
  | .bool b => if b then "True" else "False"

/-- `letta_params` from `execute_plugin_tool` (line 181): argument keys that
are orchestrator metadata and are never forwarded to the plugin. -/
def letta_params : List String := ["request_heartbeat"]

/-- The flag-synthesis loop of `execute_plugin_tool` (lines 184-191): for
each key/value pair in insertion order, reserved keys are skipped, boolean
`true` emits a bare `--key` flag, boolean `false` emits nothing, and every
other scalar emits `--key` followed by its stringification. -/
def flagArgs : List (String × JVal) → List String
  | [] => []
  | (k, v) :: rest =>
    if letta_params.contains k then flagArgs rest
    else
      match v with
      | .bool true => ("--" ++ k) :: flagArgs rest
      | .bool false => flagArgs rest
      | .str s => ("--" ++ k) :: s :: flagArgs rest
      | .num n => ("--" ++ k) :: toString n :: flagArgs rest

/-- The full argv constructed by `execute_plugin_tool` (line 178 onward):
`[sys.executable, cli_path, command]` followed by the synthesized flags. -/
def buildCmdArgs (interp cli_path command : String)
    (arguments : List (String × JVal)) : List String :=
  interp :: cli_path :: command :: flagArgs arguments

/-- Result of a completed subprocess: exit status plus captured streams. -/
structure ProcResult where
  returncode : Int
  stdout : String
  stderr : String
deriving DecidableEq

/-- Observable outcome of one `execute_plugin_tool` invocation: the returned
text, the argv of the subprocess that was spawned (`none` when the call was
rejected before any spawn), and the increments applied to the
`tool_calls_success` / `tool_calls_error` counters. -/
structure ExecOutcome where
  result : String
  spawned : Option (List String)
  successInc : Nat
  errorInc : Nat
deriving DecidableEq

/-- Shallow embedding of `execute_plugin_tool` (smcp.py lines 162-233).
`registry` is the global `plugin_registry` as an association list from
plugin name to `cli.py` path; `exec` is the subprocess oracle, returning
`.error e` when process creation raises (the `except` branch) and `.ok r`
when the process runs to completion; `interp` is `sys.executable`.  The
`.env` reload after wallet operations (lines 216-219) is a side effect on
external state with no bearing on the returned outcome and is not
modelled. -/
def execute_plugin_tool (registry : List (String × String))
    (exec : List String → Except String ProcResult)
    (interp : String) (tool_name : String)
    (arguments : List (String × JVal)) : ExecOutcome :=
  if '_' ∈ tool_name.data then
    let plugin_name := pluginOf tool_name
    let command := commandOf tool_name
    match registry.lookup plugin_name with
    | none =>
      ⟨"Plugin \x27" ++ plugin_name ++ "\x27 not found", none, 0, 0⟩
    | some cli_path =>
      let cmd_args := buildCmdArgs interp cli_path command arguments
      match exec cmd_args with
      | .error e =>
        ⟨"Error executing tool " ++ tool_name ++ ": " ++ e, some cmd_args, 0, 1⟩
      | .ok r =>
        let stdout_text := pyStrip r.stdout
        let stderr_text := pyStrip r.stderr
        if r.returncode = 0 then
          ⟨stdout_text, some cmd_args, 1, 0⟩
        else
          let error_msg :=
            if stderr_text ≠ "" then stderr_text
            else if stdout_text ≠ "" then stdout_text
            else "Command failed with return code " ++ toString r.returncode
          ⟨"Error: " ++ error_msg, some cmd_args, 0, 1⟩
  else
    ⟨"Invalid tool name format: " ++ tool_name ++
      ". Expected \x27plugin_command\x27", none, 0, 0⟩

/-- The three tool-call metrics counters of the global `metrics` dict. -/
structure Metrics where
  tool_calls_total : Nat
  tool_calls_success : Nat
  tool_calls_error : Nat
deriving DecidableEq

/-- Shallow embedding of `call_tool_handler` (smcp.py lines 934-941)
composed with the counter mutations performed inside
`execute_plugin_tool`: the handler increments `tool_calls_total` once and
then the dispatch applies its own success/error increments. -/
def call_tool_handler (registry : List (String × String))
    (exec : List String → Except String ProcResult) (interp : String)
    (m : Metrics) (tool_name : String)
    (arguments : List (String × JVal)) : Metrics × String :=
  let o := execute_plugin_tool registry exec interp tool_name arguments
  (⟨m.tool_calls_total + 1,
    m.tool_calls_success + o.successInc,
    m.tool_calls_error + o.errorInc⟩, o.result)

/-- Run a sequence of tool calls through `call_tool_handler`, threading the
metrics record. -/
def runCalls (registry : List (String × String))
    (exec : List String → Except String ProcResult) (interp : String) :
    Metrics → List (String × List (String × JVal)) → Metrics
  | m, [] => m
  | m, c :: cs =>
    runCalls registry exec interp
      (call_tool_handler registry exec interp m c.1 c.2).1 cs

/-- Outcome of a single queued call. -/
def callOutcome (registry : List (String × String))
    (exec : List String → Except String ProcResult) (interp : String)
    (c : String × List (String × JVal)) : ExecOutcome :=
  execute_plugin_tool registry exec interp c.1 c.2

/-- Number of calls in the sequence whose subprocess exited 0. -/
def successCount (registry : List (String × String))
    (exec : List String → Except String ProcResult) (interp : String)
    (cs : List (String × List (String × JVal))) : Nat :=
  (cs.map (fun c => (callOutcome registry exec interp c).successInc)).sum

/-- Number of calls in the sequence that reached a spawn and failed
(non-zero exit or spawn exception). -/
def errorCount (registry : List (String × String))
    (exec : List String → Except String ProcResult) (interp : String)
    (cs : List (String × List (String × JVal))) : Nat :=
  (cs.map (fun c => (callOutcome registry exec interp c).errorInc)).sum

/-- Number of calls rejected before any subprocess spawn (malformed tool
name or unknown plugin). -/
def rejectedCount (registry : List (String × String))
    (exec : List String → Except String ProcResult) (interp : String)
    (cs : List (String × List (String × JVal))) : Nat :=
  cs.countP (fun c => (callOutcome registry exec interp c).spawned.isNone)

/-- The reserved-token exclusion list of the command-extraction loop in
`register_plugin_tools` (smcp.py line 913). -/
def excludedTokens : List String := ["usage:", "options:", "Available", "Examples:"]

/-- One step of the command-extraction state machine of
`register_plugin_tools` (smcp.py lines 900-914).  State: whether we are
inside the "Available commands:" section, plus the commands collected so
far. -/
def extractStep (st : Bool × List String) (line : String) : Bool × List String :=
  if beginsWith (pyStrip line) "Available commands:" then (true, st.2)
  else if st.1 then
    if pyStrip line = "" || beginsWith (pyStrip line) "Examples" then (false, st.2)
    else if beginsWith line "  " then
      match pySplitWs (pyStrip line) with
      | [] => st
      | t :: _ => if excludedTokens.contains t then st else (st.1, st.2 ++ [t])
    else st
  else st

/-- The commands extracted from a plugin's help output, given as its list of
stdout lines (the Python splits `help_text` on newlines at line 899; the
embedding starts from the resulting line list). -/
def extractCommands (lines : List String) : List String :=
  (lines.foldl extractStep (false, [])).2

/-- Synthesized tool name for a plugin command
(`create_tool_from_plugin`, smcp.py line 239). -/
def toolName (plugin command : String) : String :=
  plugin ++ "_" ++ command

/-- The advertised tool names produced by `register_plugin_tools` from a
set of discovered plugins paired with their extracted command lists. -/
def catalogueNames (plugins : List (String × List String)) : List String :=
  (plugins.map (fun pc => pc.2.map (fun c => toolName pc.1 c))).flatten

/-- One directory entry seen by `plugins_dir.iterdir()`: its name, whether
it is a directory, and whether it contains a `cli.py` entry point. -/
structure DirEntry where
  name : String
  isDir : Bool
  hasCliPy : Bool
deriving DecidableEq

/-- The disabled-plugin list computed by `discover_plugins` (smcp.py lines
112-113): split the configured value on commas, strip each piece, drop
empties. -/
def parseDisabled (raw : String) : List String :=
  ((pySplitOnComma raw).map pyStrip).filter (fun s => s ≠ "")

/-- Shallow embedding of `discover_plugins` (smcp.py lines 96-139).  The
filesystem is abstracted as `root`: `none` when the plugins directory does
not exist (the code logs a warning and returns the empty dict), otherwise
the list of entries of `iterdir()`.  `disabledRaw` is the value of
`MCP_DISABLED_PLUGINS` (default "botfather,devops") and `rootPath` the
plugins directory path used to form each `cli.py` path string.  The world
update of `metrics["plugins_discovered"]` is a counter assignment not
needed by any claim. -/
def discover_plugins : Option (List DirEntry) → String → String → List (String × String)
  | none, _, _ => []
  | some entries, disabledRaw, rootPath =>
    entries.foldl
      (fun acc e =>
        if e.isDir then
          if (parseDisabled disabledRaw).contains e.name then acc
          else if e.hasCliPy then
            acc ++ [(e.name, rootPath ++ "/" ++ e.name ++ "/cli.py")]
          else acc
        else acc)
      []

/-- Boolean form of the condition under which `discover_plugins` registers
an entry. -/
def keepEntry (disabledRaw : String) (e : DirEntry) : Bool :=
  e.isDir && !(parseDisabled disabledRaw).contains e.name && e.hasCliPy

/-- Per-key specification of the flag translation: what one key/value pair
of the arguments mapping contributes to the argv. -/
def renderArg (kv : String × JVal) : List String :=
  if letta_params.contains kv.1 then []
  else
    match kv.2 with
    | .bool true => ["--" ++ kv.1]
    | .bool false => []
    | .str s => ["--" ++ kv.1, s]
    | .num n => ["--" ++ kv.1, toString n]

lemma flagArgs_eq_flatten (args : List (String × JVal)) :
    flagArgs args = (args.map renderArg).flatten := by
  induction args with
  | nil => rfl
  | cons kv rest ih =>
    obtain ⟨k, v⟩ := kv
    by_cases hk : k ∈ letta_params
    · simp [flagArgs, renderArg, hk, ih]
    · cases v with
      | str s => simp [flagArgs, renderArg, hk, ih]
      | num n => simp [flagArgs, renderArg, hk, ih]
      | bool b => cases b <;> simp [flagArgs, renderArg, hk, ih]

lemma flagArgs_filter (args : List (String × JVal)) :
    flagArgs (args.filter (fun kv => !decide (kv.1 ∈ letta_params))) = flagArgs args := by
  induction args with
  | nil => rfl
  | cons kv rest ih =>
    obtain ⟨k, v⟩ := kv
    by_cases hk : k ∈ letta_params
    · simp [List.filter_cons, flagArgs, hk, ih]
    · cases v with
      | str s => simp [List.filter_cons, flagArgs, hk, ih]
      | num n => simp [List.filter_cons, flagArgs, hk, ih]
      | bool b => cases b <;> simp [List.filter_cons, flagArgs, hk, ih]

/-- C2 counterexample: the dispatcher uses argument keys verbatim when
forming flags — there is no camelCase-to-kebab-case conversion — so the
claimed mapping with key `gasPriceGwei` yields `--gasPriceGwei 5`, and the
flag `--gas-price-gwei` claimed for it never appears in the argv. -/
theorem C2_counterexample :
    buildCmdArgs "python3" "plugins/bsc/cli.py" "send-native"
        [("symbol", .str "BTC"), ("broadcast", .bool true), ("gasPriceGwei", .num 5)] =
      ["python3", "plugins/bsc/cli.py", "send-native",
        "--symbol", "BTC", "--broadcast", "--gasPriceGwei", "5"] ∧
    "--gas-price-gwei" ∉ buildCmdArgs "python3" "plugins/bsc/cli.py" "send-native"
        [("symbol", .str "BTC"), ("broadcast", .bool true), ("gasPriceGwei", .num 5)] := by
  decide

/-- C2 (amended): argv is [interpreter, entryPath, commandName] followed by
the concatenation of per-key renderings — boolean true gives a bare
`--key` flag, boolean false gives nothing, any other scalar gives
`--key <stringified value>`, with the key taken verbatim from the
arguments mapping; in particular the mapping with keys `symbol`,
`broadcast`, `gas-price-gwei` yields exactly
`--symbol BTC --broadcast --gas-price-gwei 5`. -/
theorem C2_argv_construction :
    (∀ (interp cli_path command : String) (args : List (String × JVal)),
      buildCmdArgs interp cli_path command args =
        interp :: cli_path :: command :: (args.map renderArg).flatten) ∧
    buildCmdArgs "python3" "plugins/bsc/cli.py" "send-native"
        [("symbol", .str "BTC"), ("broadcast", .bool true), ("gas-price-gwei", .num 5)] =
      ["python3", "plugins/bsc/cli.py", "send-native",
        "--symbol", "BTC", "--broadcast", "--gas-price-gwei", "5"] := by
  refine ⟨fun i p c args => ?_, by decide⟩
  simp [buildCmdArgs, flagArgs_eq_flatten]

/-- C5: a tool name without the underscore separator is rejected with a
descriptive error before any subprocess is spawned (the outcome's spawn
field is `none`, and the subprocess oracle is never consulted since the
outcome does not depend on it), and a well-formed name whose resolved
plugin is not in the registry is rejected with a "plugin not found" error,
likewise before any spawn. -/
theorem C5_prevalidation (registry : List (String × String))
    (exec : List String → Except String ProcResult) (interp : String)
    (tool : String) (args : List (String × JVal)) :
    (¬ '_' ∈ tool.data →
      execute_plugin_tool registry exec interp tool args =
        ⟨"Invalid tool name format: " ++ tool ++ ". Expected \x27plugin_command\x27",
          none, 0, 0⟩) ∧
    ('_' ∈ tool.data → registry.lookup (pluginOf tool) = none →
      execute_plugin_tool registry exec interp tool args =
        ⟨"Plugin \x27" ++ pluginOf tool ++ "\x27 not found", none, 0, 0⟩) := by
  constructor
  · intro h
    simp [execute_plugin_tool, h]
  · intro h hl
    simp [execute_plugin_tool, h, hl]

/-- C5 witness: concrete malformed call and concrete unknown-plugin call. -/
theorem C5_witness :
    execute_plugin_tool [] (fun _ => Except.ok ⟨0, "", ""⟩) "python3" "badname" [] =
      ⟨"Invalid tool name format: badname. Expected \x27plugin_command\x27",
        none, 0, 0⟩ ∧
    execute_plugin_tool [] (fun _ => Except.ok ⟨0, "", ""⟩) "python3" "ghost_run" [] =
      ⟨"Plugin \x27ghost\x27 not found", none, 0, 0⟩ :=
  ⟨((C5_prevalidation [] (fun _ => Except.ok ⟨0, "", ""⟩) "python3" "badname" []).1
      (by decide)).trans (by decide),
   ((C5_prevalidation [] (fun _ => Except.ok ⟨0, "", ""⟩) "python3" "ghost_run" []).2
      (by decide) (by decide)).trans (by decide)⟩

/-- C6: reserved metadata keys (`request_heartbeat`) are stripped before
flag synthesis — the argv equals the argv of the mapping with reserved
keys deleted, so any two mappings that agree outside the reserved set
produce identical argv lists. -/
theorem C6_reserved_stripping :
    (∀ args : List (String × JVal),
      flagArgs args = flagArgs (args.filter (fun kv => !decide (kv.1 ∈ letta_params)))) ∧
    (∀ (a b : List (String × JVal)) (interp cli_path command : String),
      a.filter (fun kv => !decide (kv.1 ∈ letta_params)) =
        b.filter (fun kv => !decide (kv.1 ∈ letta_params)) →
      buildCmdArgs interp cli_path command a = buildCmdArgs interp cli_path command b) := by
  refine ⟨fun args => (flagArgs_filter args).symm, fun a b i p c h => ?_⟩
  simp only [buildCmdArgs]
  rw [← flagArgs_filter a, ← flagArgs_filter b, h]

/-- C6 witness: a mapping carrying `request_heartbeat` yields the same argv
as the mapping without it. -/
theorem C6_witness :
    buildCmdArgs "python3" "plugins/bsc/cli.py" "get-balance"
        [("address", .str "0xabc"), ("request_heartbeat", .bool true)] =
      buildCmdArgs "python3" "plugins/bsc/cli.py" "get-balance"
        [("address", .str "0xabc")] :=
  C6_reserved_stripping.2
    [("address", .str "0xabc"), ("request_heartbeat", .bool true)]
    [("address", .str "0xabc")] "python3" "plugins/bsc/cli.py" "get-balance"
    (by decide)

lemma execOutcome_inc (registry : List (String × String))
    (exec : List String → Except String ProcResult) (interp tool : String)
    (args : List (String × JVal)) :
    (execute_plugin_tool registry exec interp tool args).successInc +
      (execute_plugin_tool registry exec interp tool args).errorInc +
      (if (execute_plugin_tool registry exec interp tool args).spawned.isNone
        then 1 else 0) = 1 := by
  by_cases hfmt : '_' ∈ tool.data
  · rcases hlk : List.lookup (pluginOf tool) registry with _ | cli_path
    · simp [execute_plugin_tool, hfmt, hlk]
    · rcases hex : exec (buildCmdArgs interp cli_path (commandOf tool) args) with e | r
      · simp [execute_plugin_tool, hfmt, hlk, hex]
      · by_cases hr : r.returncode = 0 <;>
          simp [execute_plugin_tool, hfmt, hlk, hex, hr]
  · simp [execute_plugin_tool, hfmt]

/-- C1 counterexample: a single call with a malformed tool name is a failed
call (N = 0 successful, M = 1 failed), yet after it `toolCallsTotal = 1`
while `toolCallsError = 0`, not `1` as the claim demands — the early
rejection returns explanatory text without touching the error counter. -/
theorem C1_counterexample :
    runCalls [] (fun _ => Except.ok ⟨0, "", ""⟩) "python3" ⟨0, 0, 0⟩
        [("badname", [])] = ⟨1, 0, 0⟩ ∧
    (call_tool_handler [] (fun _ => Except.ok ⟨0, "", ""⟩) "python3" ⟨0, 0, 0⟩
        "badname" []).2 =
      "Invalid tool name format: badname. Expected \x27plugin_command\x27" := by
  decide

/-- C1 (amended): every invocation increments `toolCallsTotal` exactly once;
an invocation increments `toolCallsSuccess` iff its subprocess exited 0 and
`toolCallsError` iff it reached a spawn and failed (non-zero exit or spawn
exception); calls rejected before the spawn — malformed tool name or
unknown plugin — increment neither success nor error, so after any call
sequence `total = success-increments + error-increments + rejected`. -/
theorem C1_metrics_accounting (registry : List (String × String))
    (exec : List String → Except String ProcResult) (interp : String)
    (m : Metrics) (cs : List (String × List (String × JVal))) :
    (runCalls registry exec interp m cs).tool_calls_total =
      m.tool_calls_total + cs.length ∧
    (runCalls registry exec interp m cs).tool_calls_success =
      m.tool_calls_success + successCount registry exec interp cs ∧
    (runCalls registry exec interp m cs).tool_calls_error =
      m.tool_calls_error + errorCount registry exec interp cs ∧
    successCount registry exec interp cs + errorCount registry exec interp cs +
      rejectedCount registry exec interp cs = cs.length := by
  induction cs generalizing m with
  | nil => simp [runCalls, successCount, errorCount, rejectedCount]
  | cons c cs ih =>
    have hstep := execOutcome_inc registry exec interp c.1 c.2
    obtain ⟨h1, h2, h3, h4⟩ :=
      ih (m := ⟨m.tool_calls_total + 1,
        m.tool_calls_success + (execute_plugin_tool registry exec interp c.1 c.2).successInc,
        m.tool_calls_error + (execute_plugin_tool registry exec interp c.1 c.2).errorInc⟩)
    have hrun : runCalls registry exec interp m (c :: cs) =
        runCalls registry exec interp
          ⟨m.tool_calls_total + 1,
            m.tool_calls_success + (execute_plugin_tool registry exec interp c.1 c.2).successInc,
            m.tool_calls_error + (execute_plugin_tool registry exec interp c.1 c.2).errorInc⟩ cs := rfl
    have hs : successCount registry exec interp (c :: cs) =
        (execute_plugin_tool registry exec interp c.1 c.2).successInc +
          successCount registry exec interp cs := by
      simp only [successCount, callOutcome, List.map_cons, List.sum_cons]
    have he : errorCount registry exec interp (c :: cs) =
        (execute_plugin_tool registry exec interp c.1 c.2).errorInc +
          errorCount registry exec interp cs := by
      simp only [errorCount, callOutcome, List.map_cons, List.sum_cons]
    have hr : rejectedCount registry exec interp (c :: cs) =
        rejectedCount registry exec interp cs +
          (if (execute_plugin_tool registry exec interp c.1 c.2).spawned.isNone
            then 1 else 0) := by
      simp only [rejectedCount, callOutcome, List.countP_cons]
    dsimp only at h1 h2 h3
    rw [hrun, hs, he, hr]
    simp only [List.length_cons]
    exact ⟨by omega, by omega, by omega, by omega⟩

/-- C3 counterexample: the success payload is not the captured stdout
verbatim — the dispatcher strips surrounding whitespace, so a stub whose
stdout is the JSON line with its trailing newline yields a payload without
that newline. -/
theorem C3_counterexample :
    (execute_plugin_tool [("alpha", "plugins/alpha/cli.py")]
        (fun _ => Except.ok ⟨0, "\x7b\"ok\":true\x7d\n", ""⟩)
        "python3" "alpha_foo" []).result = "\x7b\"ok\":true\x7d" ∧
    (execute_plugin_tool [("alpha", "plugins/alpha/cli.py")]
        (fun _ => Except.ok ⟨0, "\x7b\"ok\":true\x7d\n", ""⟩)
        "python3" "alpha_foo" []).result ≠ "\x7b\"ok\":true\x7d\n" := by
  decide

/-- C3 (amended): for every tool call whose subprocess exits with code 0,
the dispatcher returns the captured stdout with leading and trailing
whitespace stripped, as the success payload, treating it as opaque text
without parsing it; a stub that exits 0 with single-line stdout
`\x7b"ok":true\x7d` yields a success payload which is exactly that line. -/
theorem C3_success_payload (registry : List (String × String))
    (exec : List String → Except String ProcResult)
    (interp tool : String) (args : List (String × JVal))
    (cli_path : String) (r : ProcResult)
    (hfmt : '_' ∈ tool.data)
    (hlook : registry.lookup (pluginOf tool) = some cli_path)
    (hexec : exec (buildCmdArgs interp cli_path (commandOf tool) args) = Except.ok r)
    (hret : r.returncode = 0) :
    execute_plugin_tool registry exec interp tool args =
      ⟨pyStrip r.stdout,
        some (buildCmdArgs interp cli_path (commandOf tool) args), 1, 0⟩ := by
  simp [execute_plugin_tool, hfmt, hlook, hexec, hret]

/-- C3 witness: a stub plugin exiting 0 with stdout `\x7b"ok":true\x7d`
plus a newline yields exactly the stripped line as payload and one success
increment. -/
theorem C3_witness :
    execute_plugin_tool [("alpha", "plugins/alpha/cli.py")]
        (fun _ => Except.ok ⟨0, "\x7b\"ok\":true\x7d\n", ""⟩)
        "python3" "alpha_foo" [] =
      ⟨"\x7b\"ok\":true\x7d",
        some ["python3", "plugins/alpha/cli.py", "foo"], 1, 0⟩ :=
  (C3_success_payload [("alpha", "plugins/alpha/cli.py")]
      (fun _ => Except.ok ⟨0, "\x7b\"ok\":true\x7d\n", ""⟩)
      "python3" "alpha_foo" [] "plugins/alpha/cli.py"
      ⟨0, "\x7b\"ok\":true\x7d\n", ""⟩
      (by decide) (by decide) rfl rfl).trans (by decide)

/-- C4 counterexample: the error payload for a non-zero exit is not the
captured stderr itself — the dispatcher prefixes it with "Error: ", so a
stub exiting 1 with stderr "boom" yields payload "Error: boom", not
"boom". -/
theorem C4_counterexample :
    (execute_plugin_tool [("alpha", "plugins/alpha/cli.py")]
        (fun _ => Except.ok ⟨1, "", "boom"⟩)
        "python3" "alpha_foo" []).result = "Error: boom" ∧
    (execute_plugin_tool [("alpha", "plugins/alpha/cli.py")]
        (fun _ => Except.ok ⟨1, "", "boom"⟩)
        "python3" "alpha_foo" []).result ≠ "boom" ∧
    (execute_plugin_tool [("alpha", "plugins/alpha/cli.py")]
        (fun _ => Except.ok ⟨1, "", "boom"⟩)
        "python3" "alpha_foo" []).errorInc = 1 := by
  decide

/-- C4 (amended): for every tool call whose subprocess exits non-zero, the
dispatcher increments `toolCallsError` and returns an error payload whose
text is "Error: " followed by the stripped stderr if non-empty, else the
stripped stdout if non-empty, else the synthesized message
"Command failed with return code N" citing the exit code. -/
theorem C4_error_payload (registry : List (String × String))
    (exec : List String → Except String ProcResult)
    (interp tool : String) (args : List (String × JVal))
    (cli_path : String) (r : ProcResult)
    (hfmt : '_' ∈ tool.data)
    (hlook : registry.lookup (pluginOf tool) = some cli_path)
    (hexec : exec (buildCmdArgs interp cli_path (commandOf tool) args) = Except.ok r)
    (hret : r.returncode ≠ 0) :
    execute_plugin_tool registry exec interp tool args =
      ⟨"Error: " ++
        (if pyStrip r.stderr ≠ "" then pyStrip r.stderr
          else if pyStrip r.stdout ≠ "" then pyStrip r.stdout
          else "Command failed with return code " ++ toString r.returncode),
        some (buildCmdArgs interp cli_path (commandOf tool) args), 0, 1⟩ := by
  simp [execute_plugin_tool, hfmt, hlook, hexec, hret]

/-- C4 witness: a stub exiting 7 with empty stdout and stderr yields the
synthesized message citing the exit code, with one error increment. -/
theorem C4_witness :
    execute_plugin_tool [("alpha", "plugins/alpha/cli.py")]
        (fun _ => Except.ok ⟨7, "", ""⟩) "python3" "alpha_foo" [] =
      ⟨"Error: Command failed with return code 7",
        some ["python3", "plugins/alpha/cli.py", "foo"], 0, 1⟩ :=
  (C4_error_payload [("alpha", "plugins/alpha/cli.py")]
      (fun _ => Except.ok ⟨7, "", ""⟩) "python3" "alpha_foo" []
      "plugins/alpha/cli.py" ⟨7, "", ""⟩
      (by decide) (by decide) rfl (by decide)).trans (by decide)

lemma discover_foldl (disabledRaw rootPath : String) (entries : List DirEntry) :
    ∀ acc : List (String × String),
      entries.foldl
        (fun acc e =>
          if e.isDir then
            if (parseDisabled disabledRaw).contains e.name then acc
            else if e.hasCliPy then
              acc ++ [(e.name, rootPath ++ "/" ++ e.name ++ "/cli.py")]
            else acc
          else acc) acc =
      acc ++ (entries.filter (keepEntry disabledRaw)).map
        (fun e => (e.name, rootPath ++ "/" ++ e.name ++ "/cli.py")) := by
  induction entries with
  | nil => simp
  | cons e es ih =>
    intro acc
    rw [List.foldl_cons, ih, List.filter_cons]
    by_cases h1 : e.isDir <;>
      by_cases h2 : e.name ∈ parseDisabled disabledRaw <;>
      by_cases h3 : e.hasCliPy <;>
      simp [keepEntry, h1, h2, h3]

/-- C9: plugin discovery returns exactly the immediate subdirectories of
the plugins root that contain a `cli.py` entry point and whose name is not
in the disabled list; a missing root yields the empty registry (the code
logs a warning instead of failing), and a disabled name never appears in
the registry regardless of the entry's on-disk contents. -/
theorem C9_discovery :
    (∀ disabledRaw rootPath : String,
      discover_plugins none disabledRaw rootPath = []) ∧
    (∀ (entries : List DirEntry) (disabledRaw rootPath : String),
      discover_plugins (some entries) disabledRaw rootPath =
        (entries.filter (keepEntry disabledRaw)).map
          (fun e => (e.name, rootPath ++ "/" ++ e.name ++ "/cli.py"))) ∧
    (∀ (entries : List DirEntry) (disabledRaw rootPath : String) (nm : String),
      nm ∈ parseDisabled disabledRaw →
      nm ∉ (discover_plugins (some entries) disabledRaw rootPath).map Prod.fst) := by
  have hmain : ∀ (entries : List DirEntry) (disabledRaw rootPath : String),
      discover_plugins (some entries) disabledRaw rootPath =
        (entries.filter (keepEntry disabledRaw)).map
          (fun e => (e.name, rootPath ++ "/" ++ e.name ++ "/cli.py")) := by
    intro entries disabledRaw rootPath
    have h := discover_foldl disabledRaw rootPath entries []
    rw [List.nil_append] at h
    exact h
  refine ⟨fun _ _ => rfl, hmain, ?_⟩
  intro entries disabledRaw rootPath nm hnm hmem
  rw [hmain] at hmem
  simp only [List.map_map, List.mem_map, List.mem_filter, Function.comp] at hmem
  obtain ⟨e, ⟨_, hkeep⟩, hname⟩ := hmem
  simp only [keepEntry, Bool.and_eq_true] at hkeep
  have hni := hkeep.1.2
  rw [hname] at hni
  have hct : (parseDisabled disabledRaw).contains nm = true :=
    List.elem_eq_true_of_mem hnm
  rw [hct] at hni
  exact absurd hni (by decide)

/-- C9 witness: a disabled plugin directory with an entry point present is
still excluded from the discovered registry. -/
theorem C9_witness :
    "botfather" ∉ (discover_plugins
        (some [⟨"botfather", true, true⟩, ⟨"signer", true, true⟩])
        "botfather,devops" "plugins").map Prod.fst :=
  C9_discovery.2.2 [⟨"botfather", true, true⟩, ⟨"signer", true, true⟩]
    "botfather,devops" "plugins" "botfather" (by decide)

lemma stringDataInj {s t : String} (h : s.data = t.data) : s = t := by
  cases s
  cases t
  exact congrArg String.mk h

lemma failWitness_tail {α} {p : α → Bool} {a : α} {l : List α}
    (h : ∃ b ∈ a :: l, p b = false) (hp : p a = true) :
    ∃ b ∈ l, p b = false := by
  rcases h with ⟨b, hb, hbf⟩
  rcases List.mem_cons.mp hb with rfl | hbl
  · simp [hp] at hbf
  · exact ⟨b, hbl, hbf⟩

lemma takeWhile_append_stop {α} (p : α → Bool) :
    ∀ l : List α, (∃ a ∈ l, p a = false) →
      ∀ r : List α, (l ++ r).takeWhile p = l.takeWhile p := by
  intro l
  induction l with
  | nil => intro h; simp at h
  | cons a l ih =>
    intro h r
    by_cases hp : p a
    · simp only [List.cons_append, List.takeWhile_cons, hp, if_true]
      rw [ih (failWitness_tail h hp) r]
    · simp [List.takeWhile_cons, hp]

lemma dropWhile_append_stop {α} (p : α → Bool) :
    ∀ l : List α, (∃ a ∈ l, p a = false) →
      ∀ r : List α, (l ++ r).dropWhile p = l.dropWhile p ++ r := by
  intro l
  induction l with
  | nil => intro h; simp at h
  | cons a l ih =>
    intro h r
    by_cases hp : p a
    · simp only [List.cons_append, List.dropWhile_cons, hp, if_true]
      rw [ih (failWitness_tail h hp) r]
    · simp [List.dropWhile_cons, hp]

lemma toolName_data (p c : String) :
    (toolName p c).data = p.data ++ '_' :: c.data := by
  show ((p ++ "_") ++ c).data = _
  rw [String.data_append, String.data_append, List.append_assoc]
  rfl

lemma underscore_mem_toolName (p c : String) : '_' ∈ (toolName p c).data := by
  rw [toolName_data]
  exact List.mem_append.mpr (Or.inr (List.mem_cons_self _ _))

lemma pluginOf_toolName {p : String} (c : String) (hp : '_' ∈ p.data) :
    pluginOf (toolName p c) = pluginOf p := by
  unfold pluginOf
  rw [toolName_data,
    takeWhile_append_stop _ p.data ⟨'_', hp, by decide⟩ ('_' :: c.data)]

lemma pluginOf_toolName_ne {p : String} (c : String) (hp : '_' ∈ p.data) :
    pluginOf (toolName p c) ≠ p := by
  rw [pluginOf_toolName c hp]
  unfold pluginOf
  intro heq
  have hd : ∀ x ∈ p.data, ¬ x = '_' := by
    simpa using congrArg String.data heq
  exact hd '_' hp rfl

/-- C10: tool-name resolution always splits at the first underscore, so for
a registered plugin whose own name contains an underscore, a call to
`{plugin}_{command}` looks up only the part of the plugin name before its
first underscore — never the plugin itself; the call yields a
"plugin not found" error (with no spawn) unless that shorter name happens
to be a different registered plugin, in which case the subprocess is
spawned with that other plugin's entry path. -/
theorem C10_first_underscore_split (registry : List (String × String))
    (exec : List String → Except String ProcResult) (interp : String)
    (p c : String) (args : List (String × JVal))
    (hp : '_' ∈ p.data) :
    pluginOf (toolName p c) = pluginOf p ∧
    pluginOf (toolName p c) ≠ p ∧
    (registry.lookup (pluginOf (toolName p c)) = none →
      execute_plugin_tool registry exec interp (toolName p c) args =
        ⟨"Plugin \x27" ++ pluginOf (toolName p c) ++ "\x27 not found",
          none, 0, 0⟩) ∧
    (∀ cli_path, registry.lookup (pluginOf (toolName p c)) = some cli_path →
      (execute_plugin_tool registry exec interp (toolName p c) args).spawned =
        some (buildCmdArgs interp cli_path (commandOf (toolName p c)) args)) := by
  have hfmt : '_' ∈ (toolName p c).data := underscore_mem_toolName p c
  refine ⟨pluginOf_toolName c hp, pluginOf_toolName_ne c hp, ?_, ?_⟩
  · intro hlk
    simp [execute_plugin_tool, hfmt, hlk]
  · intro cli_path hlk
    rcases hex : exec (buildCmdArgs interp cli_path (commandOf (toolName p c)) args)
      with e | r
    · simp [execute_plugin_tool, hfmt, hlk, hex]
    · by_cases hr : r.returncode = 0 <;>
        simp [execute_plugin_tool, hfmt, hlk, hex, hr]

/-- C10 witness: with only plugin "a" registered, calling the tool of a
hypothetical plugin "a_b" resolves plugin "a": against an empty registry
it fails with "plugin not found" and no spawn; against the registry owning
"a" it spawns a's entry point with command "b_run". -/
theorem C10_witness :
    pluginOf (toolName "a_b" "run") ≠ "a_b" ∧
    execute_plugin_tool [] (fun _ => Except.ok ⟨0, "", ""⟩) "python3"
        (toolName "a_b" "run") [] =
      ⟨"Plugin \x27a\x27 not found", none, 0, 0⟩ ∧
    (execute_plugin_tool [("a", "plugins/a/cli.py")]
        (fun _ => Except.ok ⟨0, "", ""⟩) "python3" (toolName "a_b" "run") []).spawned =
      some ["python3", "plugins/a/cli.py", "b_run"] :=
  ⟨(C10_first_underscore_split [] (fun _ => Except.ok ⟨0, "", ""⟩) "python3"
      "a_b" "run" [] (by decide)).2.1,
   ((C10_first_underscore_split [] (fun _ => Except.ok ⟨0, "", ""⟩) "python3"
      "a_b" "run" [] (by decide)).2.2.1 (by decide)).trans (by decide),
   ((C10_first_underscore_split [("a", "plugins/a/cli.py")]
      (fun _ => Except.ok ⟨0, "", ""⟩) "python3"
      "a_b" "run" [] (by decide)).2.2.2 "plugins/a/cli.py" (by decide)).trans
      (by decide)⟩

lemma splitUnique {α} [DecidableEq α] (a : α) :
    ∀ (l1 l2 r1 r2 : List α), a ∉ l1 → a ∉ l2 →
      l1 ++ a :: r1 = l2 ++ a :: r2 → l1 = l2 ∧ r1 = r2 := by
  intro l1
  induction l1 with
  | nil =>
    intro l2 r1 r2 _ h2 heq
    cases l2 with
    | nil => simpa using heq
    | cons b l2 =>
      simp only [List.nil_append, List.cons_append, List.cons.injEq] at heq
      exact absurd (heq.1 ▸ List.mem_cons_self b l2) h2
  | cons b l1 ih =>
    intro l2 r1 r2 h1 h2 heq
    cases l2 with
    | nil =>
      simp only [List.cons_append, List.nil_append, List.cons.injEq] at heq
      exact absurd (heq.1 ▸ List.mem_cons_self b l1) h1
    | cons b2 l2 =>
      simp only [List.cons_append, List.cons.injEq] at heq
      obtain ⟨hb, hrest⟩ := heq
      have h1t : a ∉ l1 := fun hm => h1 (List.mem_cons_of_mem b hm)
      have h2t : a ∉ l2 := fun hm => h2 (List.mem_cons_of_mem b2 hm)
      obtain ⟨hl, hr⟩ := ih l2 r1 r2 h1t h2t hrest
      exact ⟨by rw [hb, hl], hr⟩

lemma toolName_inj {p1 c1 p2 c2 : String}
    (h1 : '_' ∉ p1.data) (h2 : '_' ∉ p2.data)
    (heq : toolName p1 c1 = toolName p2 c2) : p1 = p2 ∧ c1 = c2 := by
  have hd : p1.data ++ '_' :: c1.data = p2.data ++ '_' :: c2.data := by
    rw [← toolName_data, ← toolName_data, heq]
  obtain ⟨hp, hc⟩ := splitUnique '_' p1.data p2.data c1.data c2.data h1 h2 hd
  exact ⟨stringDataInj hp, stringDataInj hc⟩

/-- C7 counterexample: tool names are not pairwise distinct for an
arbitrary set of discovered plugins and command lists — the plugins
"a" (with command "b_c") and "a_b" (with command "c") both synthesize the
tool name "a_b_c". -/
theorem C7_counterexample :
    catalogueNames [("a", ["b_c"]), ("a_b", ["c"])] = ["a_b_c", "a_b_c"] ∧
    ¬ (catalogueNames [("a", ["b_c"]), ("a_b", ["c"])]).Nodup := by
  decide

/-- C7 (amended): provided the discovered plugin names are distinct and
contain no underscore (the separator used to synthesize tool names) and
each plugin\x27s extracted command list is duplicate-free, all synthesized
tool names `{plugin}_{command}` in the catalogue are pairwise distinct. -/
theorem C7_uniqueness (plugins : List (String × List String))
    (hnames : (plugins.map Prod.fst).Nodup)
    (hus : ∀ pc ∈ plugins, '_' ∉ pc.1.data)
    (hcmds : ∀ pc ∈ plugins, pc.2.Nodup) :
    (catalogueNames plugins).Nodup := by
  rw [catalogueNames, List.nodup_flatten]
  constructor
  · intro l hl
    simp only [List.mem_map] at hl
    obtain ⟨pc, hpc, rfl⟩ := hl
    exact (hcmds pc hpc).map
      (fun c1 c2 h => (toolName_inj (hus pc hpc) (hus pc hpc) h).2)
  · rw [List.pairwise_map]
    have hpw : plugins.Pairwise (fun pc1 pc2 => pc1.1 ≠ pc2.1) := by
      have h := hnames
      rw [List.Nodup, List.pairwise_map] at h
      exact h
    refine hpw.imp_of_mem ?_
    intro pc1 pc2 hm1 hm2 hne
    intro x hx1 hx2
    simp only [List.mem_map] at hx1 hx2
    obtain ⟨c1, _, rfl⟩ := hx1
    obtain ⟨c2, _, hx⟩ := hx2
    exact hne (toolName_inj (hus pc1 hm1) (hus pc2 hm2) hx.symm).1

/-- C7 witness: the spec\x27s concrete scenario — plugins alpha (foo, bar)
and beta (baz) — yields the pairwise-distinct catalogue
alpha_foo, alpha_bar, beta_baz. -/
theorem C7_witness :
    (catalogueNames [("alpha", ["foo", "bar"]), ("beta", ["baz"])]).Nodup :=
  C7_uniqueness [("alpha", ["foo", "bar"]), ("beta", ["baz"])]
    (by decide) (by decide) (by decide)

lemma stringMkData (s : String) : String.mk s.data = s := by
  cases s
  rfl

lemma dropWhile_all_false {α} {p : α → Bool} :
    ∀ {l : List α}, (∀ a ∈ l, p a = false) → l.dropWhile p = l := by
  intro l h
  cases l with
  | nil => rfl
  | cons a l => simp [List.dropWhile_cons, h a (List.mem_cons_self a l)]

/-- A single command token: non-empty and free of whitespace. -/
def isTokenB (s : String) : Bool :=
  !s.data.isEmpty && s.data.all (fun ch => !isWs ch)

lemma isTokenB_spec {c : String} (h : isTokenB c = true) :
    c.data ≠ [] ∧ ∀ ch ∈ c.data, isWs ch = false := by
  simp only [isTokenB, Bool.and_eq_true, List.all_eq_true] at h
  obtain ⟨h1, h2⟩ := h
  refine ⟨?_, fun ch hch => ?_⟩
  · intro hnil
    rw [hnil] at h1
    simp at h1
  · have := h2 ch hch
    simpa using this

lemma pyStrip_indent {c : String} (h : isTokenB c = true) :
    pyStrip ("  " ++ c) = c := by
  obtain ⟨hne, hall⟩ := isTokenB_spec h
  have hd : ("  " ++ c).data = ' ' :: ' ' :: c.data := by
    rw [String.data_append]
    rfl
  unfold pyStrip
  rw [hd]
  have hsp : isWs ' ' = true := by decide
  rw [List.dropWhile_cons, if_pos hsp, List.dropWhile_cons, if_pos hsp,
    dropWhile_all_false hall,
    dropWhile_all_false (fun a ha => hall a (List.mem_reverse.mp ha)),
    List.reverse_reverse]

lemma splitWsAux_all :
    ∀ (l : List Char), (∀ a ∈ l, isWs a = false) →
      ∀ acc : List Char,
        splitWsAux l acc =
          if acc.reverse ++ l = [] then [] else [String.mk (acc.reverse ++ l)] := by
  intro l
  induction l with
  | nil =>
    intro _ acc
    simp only [splitWsAux, List.append_nil]
    by_cases h : acc = []
    · simp [h]
    · simp [h, List.reverse_eq_nil_iff]
  | cons a l ih =>
    intro h acc
    have ha : isWs a = false := h a (List.mem_cons_self a l)
    simp only [splitWsAux, ha, Bool.false_eq_true, if_false]
    rw [ih (fun b hb => h b (List.mem_cons_of_mem a hb)) (a :: acc)]
    simp [List.reverse_cons, List.append_assoc]

lemma pySplitWs_token {c : String} (h : isTokenB c = true) :
    pySplitWs c = [c] := by
  obtain ⟨hne, _⟩ := isTokenB_spec h
  unfold pySplitWs
  rw [splitWsAux_all c.data (isTokenB_spec h).2 []]
  simp [hne, stringMkData]

/-- A help-output line body that the extraction loop treats as a plain
command: a single whitespace-free token, not in the exclusion list, and
not triggering the section-marker tests. -/
def plainCmd (c : String) : Bool :=
  isTokenB c && !excludedTokens.contains c &&
    !beginsWith c "Available commands:" && !beginsWith c "Examples"

lemma beginsWith_indent (c : String) : beginsWith ("  " ++ c) "  " = true := by
  simp [beginsWith, String.data_append, List.isPrefixOf]

lemma extractStep_good (acc : List String) (c : String) (h : plainCmd c = true) :
    extractStep (true, acc) ("  " ++ c) = (true, acc ++ [c]) := by
  simp only [plainCmd, Bool.and_eq_true] at h
  obtain ⟨⟨⟨htok, hX⟩, hA⟩, hE⟩ := h
  have hstrip : pyStrip ("  " ++ c) = c := pyStrip_indent htok
  have hsplit : pySplitWs c = [c] := pySplitWs_token htok
  have hcne : ¬ (c = "") := by
    intro hc
    rw [hc] at htok
    simp [isTokenB] at htok
  have hA2 : beginsWith c "Available commands:" = false := by simpa using hA
  have hE2 : beginsWith c "Examples" = false := by simpa using hE
  have hX2 : c ∉ excludedTokens := by simpa using hX
  simp only [extractStep, hstrip, hsplit, beginsWith_indent c]
  simp [hA2, hE2, hX2, hcne]

lemma extract_section :
    ∀ cmds : List String, (∀ c ∈ cmds, plainCmd c = true) →
      ∀ acc : List String,
        (cmds.map (fun c => "  " ++ c)).foldl extractStep (true, acc) =
          (true, acc ++ cmds) := by
  intro cmds
  induction cmds with
  | nil => intro _ acc; simp
  | cons c cmds ih =>
    intro h acc
    simp only [List.map_cons, List.foldl_cons]
    rw [extractStep_good acc c (h c (List.mem_cons_self c cmds)),
      ih (fun b hb => h b (List.mem_cons_of_mem c hb)) (acc ++ [c])]
    simp

/-- C8 counterexample: a non-blank line with leading whitespace does not
always contribute a command — the loop requires two leading spaces, so
the single-space-indented "foo" line is skipped while the two-space "bar"
line is collected, contradicting the claimed state machine which would
yield both. -/
theorem C8_counterexample :
    extractCommands ["Available commands:", " foo", "  bar"] = ["bar"] ∧
    "foo" ∉ extractCommands ["Available commands:", " foo", "  bar"] := by
  decide

/-- C8 (amended): command extraction enters the in-commands state on a line
whose trimmed text starts with "Available commands:", takes the first
whitespace-delimited token of every line indented by two spaces unless the
token is excluded (usage/options/header words), and leaves the state on a
blank line or a line whose trimmed text begins with "Examples"; a section
of two-space-indented plain tokens yields exactly those tokens, a blank
line or an Examples line ends collection, and an excluded token such as
"usage:" contributes nothing. -/
theorem C8_extraction :
    (∀ cmds : List String, (∀ c ∈ cmds, plainCmd c = true) →
      extractCommands ("Available commands:" :: cmds.map (fun c => "  " ++ c)) =
        cmds) ∧
    extractCommands ["Available commands:", "  foo", "", "  bar"] = ["foo"] ∧
    extractCommands ["Available commands:", "  foo", "Examples: cli.py run", "  bar"] =
      ["foo"] ∧
    extractCommands ["Available commands:", "  usage: cli.py", "  foo"] = ["foo"] := by
  refine ⟨?_, by decide, by decide, by decide⟩
  intro cmds h
  have h0 : extractStep (false, []) "Available commands:" = (true, []) := by decide
  simp only [extractCommands, List.foldl_cons, h0]
  rw [extract_section cmds h []]
  simp

/-- C8 witness: the spec\x27s concrete help text — "Available commands:"
followed by two-space-indented foo and bar — yields exactly [foo, bar]. -/
theorem C8_witness :
    extractCommands
        ("Available commands:" :: (["foo", "bar"].map (fun c => "  " ++ c))) =
      ["foo", "bar"] :=
  C8_extraction.1 ["foo", "bar"] (by decide)

end SMCP
